import Mathlib

/-!
# Verification of the Restoration Calculator core

Shallow embedding of the validation / reconciliation engine of the
questionnaire-restoration repository, together with proofs of the
behavioural properties stated in its specification.

Numbers are embedded as rationals (`ℚ`); JavaScript fields that may be
`undefined` are embedded as `Option`.  Sources:

* `src/utils/computations.ts` — derived fields (`computeFields`,
  `computeTotalAssistanceCost`, `allMethodTabsComplete`);
* `src/schemas/restorationModel.ts` — the Zod validation schema
  (`factorSharesSchema`, `scenarioCostsSchema`);
* `src/components/sections/SummaryValidationSection.tsx` — `weightedShares`;
* the assistance-entry synchronization effect of `AssistanceDetailSection`;
* the local-storage persistence layer (`loadModels`) and the JSON export.
-/

namespace Restoration

/-- Factor-of-production shares triple (`FactorShares` in `types.ts`):
percentage split of a cost across labor, materials and machinery. -/
structure FactorShares where
  labor : ℚ
  materials : ℚ
  machinery : ℚ
  deriving Repr, DecidableEq

/-- The phase in which an assistance cost is incurred
(`"implementation" | "maintenance" | "both"` in `types.ts`). -/
inductive Phase where
  | implementation
  | maintenance
  | both
  deriving Repr, DecidableEq

/-- An assistance activity cost entry (`AssistanceCost` in `types.ts`).
The `cost` field is declared `number` in TypeScript but the runtime value
may be `undefined` while the user is editing, which is why the code guards
every read with `a.cost || 0`; we embed it as `Option ℚ`. -/
structure AssistanceCost where
  name : String
  cost : Option ℚ
  phase : Phase
  factorShares : FactorShares
  deriving Repr, DecidableEq

/-- One line of the per-assistance cost breakdown
(`CostBreakdownItem` in `types.ts`). -/
structure CostBreakdownItem where
  name : String
  costPerHa : ℚ
  phase : Phase
  deriving Repr, DecidableEq

/-- The derived values recomputed on every form change
(`ComputedFields` in `types.ts`). -/
structure ComputedFields where
  totalAssistanceCost : ℚ
  computedUnfavorableCost : ℚ
  differenceFromDeclared : ℚ
  isWithinTolerance : Bool
  costBreakdownSummary : List CostBreakdownItem
  deriving Repr, DecidableEq

/-- `RECONCILIATION_TOLERANCE = 0.05` from `constants/defaults.ts`. -/
def RECONCILIATION_TOLERANCE : ℚ := 5 / 100

/-- `computeTotalAssistanceCost` from `utils/computations.ts`:
`assistanceCosts.reduce((sum, a) => sum + (a.cost || 0), 0)`. -/
def computeTotalAssistanceCost (assistanceCosts : List AssistanceCost) : ℚ :=
  assistanceCosts.foldl (fun sum a => sum + a.cost.getD 0) 0

/-- `computeFields` from `utils/computations.ts`: computes every derived
field of the additive cost model from the current form state.  The JS
`a.name || "(unnamed)"` guard is the empty-string test, and the
tolerance check is
`declared === 0 ? computed === 0 : Math.abs(diff / declared) <= RECONCILIATION_TOLERANCE`. -/
def computeFields (favorableTotalCost : ℚ) (assistanceCosts : List AssistanceCost)
    (declaredUnfavorableCost : ℚ) (interactionAdjustment : ℚ) : ComputedFields :=
  let totalAssistanceCost := computeTotalAssistanceCost assistanceCosts
  let computedUnfavorableCost :=
    favorableTotalCost + totalAssistanceCost + interactionAdjustment
  let differenceFromDeclared := declaredUnfavorableCost - computedUnfavorableCost
  let isWithinTolerance : Bool :=
    if declaredUnfavorableCost = 0 then
      decide (computedUnfavorableCost = 0)
    else
      decide (|differenceFromDeclared / declaredUnfavorableCost| ≤ RECONCILIATION_TOLERANCE)
  let costBreakdownSummary : List CostBreakdownItem :=
    assistanceCosts.map (fun a =>
      { name := if a.name = "" then "(unnamed)" else a.name
        costPerHa := a.cost.getD 0
        phase := a.phase })
  { totalAssistanceCost := totalAssistanceCost
    computedUnfavorableCost := computedUnfavorableCost
    differenceFromDeclared := differenceFromDeclared
    isWithinTolerance := isWithinTolerance
    costBreakdownSummary := costBreakdownSummary }

/-! ## Zod validation schema (`schemas/restorationModel.ts`)

A Zod object schema first checks every field's own constraints, collecting
one issue per failing field; the `.refine` cross-field predicate is only
evaluated when the base object parses.  We embed each schema as the list
of field-level issue paths together with the refinement predicate, and an
overall acceptance boolean. -/

/-- Field-level issues of `factorSharesSchema`: each of the three
percentages must lie in `[0, 100]` (`.min(0)` / `.max(100)`). -/
def factorFieldIssues (s : FactorShares) : List String :=
  (if s.labor < 0 ∨ 100 < s.labor then ["labor"] else []) ++
  (if s.materials < 0 ∨ 100 < s.materials then ["materials"] else []) ++
  (if s.machinery < 0 ∨ 100 < s.machinery then ["machinery"] else [])

/-- The `.refine` predicate of `factorSharesSchema`:
`Math.abs(d.labor + d.materials + d.machinery - 100) < 0.01`. -/
def factorSumOk (s : FactorShares) : Bool :=
  |s.labor + s.materials + s.machinery - 100| < 1 / 100

/-- `factorSharesSchema` acceptance: all field constraints hold and the
sum-to-100 refinement holds. -/
def factorSharesAccepts (s : FactorShares) : Bool :=
  factorFieldIssues s = [] && factorSumOk s

/-- A scenario cost triple (`ScenarioCosts` in `types.ts`). -/
structure ScenarioCosts where
  totalCost : ℚ
  implementationCost : ℚ
  maintenanceCost : ℚ
  deriving Repr, DecidableEq

/-- Field-level issues of `scenarioCostsSchema`: each cost has `.min(0)`. -/
def scenarioFieldIssues (c : ScenarioCosts) : List String :=
  (if c.totalCost < 0 then ["totalCost"] else []) ++
  (if c.implementationCost < 0 then ["implementationCost"] else []) ++
  (if c.maintenanceCost < 0 then ["maintenanceCost"] else [])

/-- The `.refine` predicate of `scenarioCostsSchema`:
`Math.abs(d.totalCost - (d.implementationCost + d.maintenanceCost)) < 0.01`. -/
def scenarioTotalOk (c : ScenarioCosts) : Bool :=
  |c.totalCost - (c.implementationCost + c.maintenanceCost)| < 1 / 100

/-- `scenarioCostsSchema` acceptance: all field constraints hold and the
total-equals-parts refinement holds. -/
def scenarioCostsAccepts (c : ScenarioCosts) : Bool :=
  scenarioFieldIssues c = [] && scenarioTotalOk c

/-! ## Method baseline completeness (`allMethodTabsComplete`) -/

/-- A per-method baseline cost entry (`MethodCostEntry`).  The two
distributions may be `undefined` at runtime (the code tests `!id || !md`),
so they are embedded as `Option`. -/
structure MethodCostEntry where
  implementationCost : ℚ
  implementationDistribution : Option FactorShares
  maintenanceCost : ℚ
  maintenanceDistribution : Option FactorShares
  deriving Repr, DecidableEq

/-- The four fixed method tabs (`MethodCosts`), each possibly absent. -/
structure MethodCosts where
  natural_regeneration : Option MethodCostEntry
  anr_30 : Option MethodCostEntry
  seed_dispersal : Option MethodCostEntry
  seedling_planting : Option MethodCostEntry
  deriving Repr, DecidableEq

/-- Sum of a distribution as the code computes it:
`(Number(d.labor) || 0) + (Number(d.machinery) || 0) + (Number(d.materials) || 0)`
(the `Number(x) || 0` coercion is the identity on the rational field
values of our embedding). -/
def distSum (d : FactorShares) : ℚ :=
  d.labor + d.machinery + d.materials

/-- The per-tab check inside `allMethodTabsComplete`: the entry exists,
both costs are strictly positive, both distributions exist and each sums
to 100 within `0.01`. -/
def tabCheck (entry : Option MethodCostEntry) : Bool :=
  match entry with
  | none => false
  | some e =>
    if e.implementationCost ≤ 0 ∨ e.maintenanceCost ≤ 0 then false
    else
      match e.implementationDistribution, e.maintenanceDistribution with
      | some id_, some md => |distSum id_ - 100| < 1 / 100 && |distSum md - 100| < 1 / 100
      | _, _ => false

/-- `allMethodTabsComplete` from `utils/computations.ts`: `false` on an
`undefined` argument, otherwise `tabs.every(...)` over the four fixed
variants. -/
def allMethodTabsComplete (methodCosts : Option MethodCosts) : Bool :=
  match methodCosts with
  | none => false
  | some m =>
    tabCheck m.natural_regeneration && tabCheck m.anr_30 &&
      tabCheck m.seed_dispersal && tabCheck m.seedling_planting

/-! ## Weighted factor shares (`SummaryValidationSection.tsx`) -/

/-- A cost component fed to `weightedShares`: a cost (possibly
`undefined`, guarded by `c.cost || 0` in the code) with its factor
shares. -/
structure CostComponent where
  cost : Option ℚ
  shares : FactorShares
  deriving Repr, DecidableEq

/-- `weightedShares` from `SummaryValidationSection.tsx`: cost-weighted
average of each factor dimension; returns the zero triple when the total
cost is `0` instead of dividing by zero. -/
def weightedShares (components : List CostComponent) : FactorShares :=
  let total := components.foldl (fun s c => s + c.cost.getD 0) 0
  if total = 0 then ⟨0, 0, 0⟩
  else
    components.foldl
      (fun acc c =>
        let w := c.cost.getD 0 / total
        ⟨acc.labor + c.shares.labor * w,
         acc.materials + c.shares.materials * w,
         acc.machinery + c.shares.machinery * w⟩)
      ⟨0, 0, 0⟩

/-! ## Assistance-entry synchronization (`AssistanceDetailSection`)

The effect keeps `assistanceCosts` 1:1 with `selectedAssistances`:
for each selected identifier it keeps the existing entry with that name
or inserts a zero-initialized one, and it only calls `setValue` (a write)
when the comma-join of the current names differs from the join of the
updated names. -/

/-- The zero-initialized entry inserted for a newly selected identifier:
`{ name: id, cost: 0, phase: "implementation", factorShares: {0,0,0} }`. -/
def freshAssistanceEntry (id : String) : AssistanceCost :=
  { name := id
    cost := some 0
    phase := Phase.implementation
    factorShares := ⟨0, 0, 0⟩ }

/-- The `updated` list built by the synchronization effect:
`selectedAssistances.map(id => existing(id) || fresh(id))`. -/
def syncedAssistanceEntries (selected : List String)
    (entries : List AssistanceCost) : List AssistanceCost :=
  selected.map fun id =>
    match entries.find? (fun c => c.name == id) with
    | some existing => existing
    | none => freshAssistanceEntry id

/-- The write performed by the synchronization effect, as an
`Option`: `some newList` when `setValue("assistanceCosts", newList)` is
called, `none` when the effect returns without mutating the form state.
Mirrors the source: the empty-selection branch writes `[]` only when the
entry list is non-empty, and the general branch writes `updated` only
when the comma-joined name lists differ. -/
def assistanceSyncWrite (selected : List String)
    (entries : List AssistanceCost) : Option (List AssistanceCost) :=
  if selected.isEmpty then
    if entries.length > 0 then some [] else none
  else
    let updated := syncedAssistanceEntries selected entries
    let currentNames := String.intercalate "," (entries.map (fun c => c.name))
    let updatedNames := String.intercalate "," (updated.map (fun c => c.name))
    if currentNames ≠ updatedNames then some updated else none

/-! ## JSON documents and the persisted record shape

`exportToJsonFile` serializes the record with `JSON.stringify` and
`loadModels` reads stored text back with `JSON.parse`.  We embed a JSON
document as a tree (`Json`); the text layer — printing a tree and
parsing it back — is the JSON grammar's bijection on documents, so the
round-trip content of the export/load pair lives at the tree level:
which fields are emitted, with which primitive types, and how a tree is
read back into the record shape. -/

/-- A JSON document. -/
inductive Json where
  | null
  | num (q : ℚ)
  | str (s : String)
  | bool (b : Bool)
  | arr (elems : List Json)
  | obj (fields : List (String × Json))

/-- Look a key up in a JSON object (first binding wins, as in a parsed
JavaScript object). -/
def Json.getField : Json → String → Option Json
  | .obj fields, key => fields.lookup key
  | _, _ => none

/-- Read a JSON number. -/
def Json.asNum : Json → Option ℚ
  | .num q => some q
  | _ => none

/-- Read a JSON string. -/
def Json.asStr : Json → Option String
  | .str s => some s
  | _ => none

/-- Read a JSON array. -/
def Json.asArr : Json → Option (List Json)
  | .arr elems => some elems
  | _ => none

/-- `loadModels` from the persistence layer, with the platform pieces
passed in: the stored value (`localStorage.getItem`, `none` when the key
is absent) and the JSON text parser (`JSON.parse`, `none` when parsing
throws).  The `try/catch` around the body returns `[]` on a parse
failure, the `!raw` guard returns `[]` on an absent or empty stored
value, and a successfully parsed document is returned as is (the
`as SavedModel[]` cast performs no validation). -/
def loadModels (parseJson : String → Option Json) (stored : Option String) : Json :=
  match stored with
  | none => Json.arr []
  | some raw =>
    if raw = "" then Json.arr []
    else
      match parseJson raw with
      | none => Json.arr []
      | some doc => doc

/-! ### The persisted record shape (`RestorationModel` in `types.ts`)

The value handed to `exportToJsonFile` and stored inside a `SavedModel`
is a `RestorationModel`: identification strings, categorical context
variables, the selected assistance identifiers, both scenario cost
triples, the assistance cost entries, the interaction adjustment and the
favorable factor shares. -/

/-- Categorical severity level (`"low" | "medium" | "high"`). -/
inductive SeverityLevel where
  | low
  | medium
  | high
  deriving Repr, DecidableEq

/-- Soil degradation level (`"none" | "moderate" | "severe"`). -/
inductive SoilDegradationLevel where
  | none
  | moderate
  | severe
  deriving Repr, DecidableEq

/-- Binary availability constraint (`"yes" | "no"`). -/
inductive BinaryConstraint where
  | yes
  | no
  deriving Repr, DecidableEq

/-- Context variables of the persisted record (`ContextVariables` in
`types.ts`): categorical site conditions. -/
structure ContextVariables where
  fireRisk : SeverityLevel
  soilDegradation : SoilDegradationLevel
  grazingPressure : SeverityLevel
  invasiveSpeciesPressure : SeverityLevel
  humanEncroachment : SeverityLevel
  seedAvailabilityConstraint : BinaryConstraint
  deriving Repr, DecidableEq

/-- The top-level persisted record (`RestorationModel` in `types.ts`). -/
structure RestorationModel where
  ecosystem : String
  country : String
  method : String
  timeHorizon : ℚ
  contextVariables : ContextVariables
  selectedAssistances : List String
  favorableScenario : ScenarioCosts
  unfavorableScenario : ScenarioCosts
  assistanceCosts : List AssistanceCost
  interactionAdjustment : ℚ
  favorableFactorShares : FactorShares
  deriving Repr, DecidableEq

/-! ### Serialization of the record shape

`JSON.stringify` emits every defined field of an object in declaration
order, numbers as JSON numbers, strings as JSON strings, string-literal
enums as their literal, arrays as JSON arrays — and silently omits a
field whose value is `undefined`.  The decoders below read a JSON
document back into the record shape, failing (`none`) on a missing field
or a mistyped value, which is what makes the round-trip statement say
that no field is lost and no value changes type. -/

/-- Serialize a severity level. -/
def SeverityLevel.toJson : SeverityLevel → Json
  | .low => .str "low"
  | .medium => .str "medium"
  | .high => .str "high"

/-- Parse a severity level. -/
def SeverityLevel.fromJson : Json → Option SeverityLevel
  | .str "low" => some .low
  | .str "medium" => some .medium
  | .str "high" => some .high
  | _ => Option.none

/-- Serialize a soil degradation level. -/
def SoilDegradationLevel.toJson : SoilDegradationLevel → Json
  | .none => .str "none"
  | .moderate => .str "moderate"
  | .severe => .str "severe"

/-- Parse a soil degradation level. -/
def SoilDegradationLevel.fromJson : Json → Option SoilDegradationLevel
  | .str "none" => some .none
  | .str "moderate" => some .moderate
  | .str "severe" => some .severe
  | _ => Option.none

/-- Serialize a binary constraint. -/
def BinaryConstraint.toJson : BinaryConstraint → Json
  | .yes => .str "yes"
  | .no => .str "no"

/-- Parse a binary constraint. -/
def BinaryConstraint.fromJson : Json → Option BinaryConstraint
  | .str "yes" => some .yes
  | .str "no" => some .no
  | _ => Option.none

/-- Serialize a phase. -/
def Phase.toJson : Phase → Json
  | .implementation => .str "implementation"
  | .maintenance => .str "maintenance"
  | .both => .str "both"

/-- Parse a phase. -/
def Phase.fromJson : Json → Option Phase
  | .str "implementation" => some .implementation
  | .str "maintenance" => some .maintenance
  | .str "both" => some .both
  | _ => Option.none

/-- Serialize a factor-shares triple. -/
def FactorShares.toJson (s : FactorShares) : Json :=
  .obj [("labor", .num s.labor), ("materials", .num s.materials),
        ("machinery", .num s.machinery)]

/-- Parse a factor-shares triple. -/
def FactorShares.fromJson (j : Json) : Option FactorShares := do
  let labor ← (← j.getField "labor").asNum
  let materials ← (← j.getField "materials").asNum
  let machinery ← (← j.getField "machinery").asNum
  pure ⟨labor, materials, machinery⟩

/-- Serialize a scenario cost triple. -/
def ScenarioCosts.toJson (c : ScenarioCosts) : Json :=
  .obj [("totalCost", .num c.totalCost),
        ("implementationCost", .num c.implementationCost),
        ("maintenanceCost", .num c.maintenanceCost)]

/-- Parse a scenario cost triple. -/
def ScenarioCosts.fromJson (j : Json) : Option ScenarioCosts := do
  let totalCost ← (← j.getField "totalCost").asNum
  let implementationCost ← (← j.getField "implementationCost").asNum
  let maintenanceCost ← (← j.getField "maintenanceCost").asNum
  pure ⟨totalCost, implementationCost, maintenanceCost⟩

/-- Serialize context variables. -/
def ContextVariables.toJson (v : ContextVariables) : Json :=
  .obj [("fireRisk", v.fireRisk.toJson),
        ("soilDegradation", v.soilDegradation.toJson),
        ("grazingPressure", v.grazingPressure.toJson),
        ("invasiveSpeciesPressure", v.invasiveSpeciesPressure.toJson),
        ("humanEncroachment", v.humanEncroachment.toJson),
        ("seedAvailabilityConstraint", v.seedAvailabilityConstraint.toJson)]

/-- Parse context variables. -/
def ContextVariables.fromJson (j : Json) : Option ContextVariables := do
  let fireRisk ← SeverityLevel.fromJson (← j.getField "fireRisk")
  let soilDegradation ← SoilDegradationLevel.fromJson (← j.getField "soilDegradation")
  let grazingPressure ← SeverityLevel.fromJson (← j.getField "grazingPressure")
  let invasiveSpeciesPressure ← SeverityLevel.fromJson (← j.getField "invasiveSpeciesPressure")
  let humanEncroachment ← SeverityLevel.fromJson (← j.getField "humanEncroachment")
  let seedAvailabilityConstraint ← BinaryConstraint.fromJson (← j.getField "seedAvailabilityConstraint")
  pure ⟨fireRisk, soilDegradation, grazingPressure, invasiveSpeciesPressure,
        humanEncroachment, seedAvailabilityConstraint⟩

/-- Serialize an assistance cost entry.  `JSON.stringify` omits the
`cost` key entirely when the runtime value is `undefined`. -/
def AssistanceCost.toJson (a : AssistanceCost) : Json :=
  .obj (("name", .str a.name) ::
    (match a.cost with
     | some q => [("cost", Json.num q)]
     | Option.none => []) ++
    [("phase", a.phase.toJson), ("factorShares", a.factorShares.toJson)])

/-- Parse an assistance cost entry (the `cost` field is required by the
`AssistanceCost` interface, so a document without it does not parse). -/
def AssistanceCost.fromJson (j : Json) : Option AssistanceCost := do
  let name ← (← j.getField "name").asStr
  let cost ← (← j.getField "cost").asNum
  let phase ← Phase.fromJson (← j.getField "phase")
  let factorShares ← FactorShares.fromJson (← j.getField "factorShares")
  pure ⟨name, some cost, phase, factorShares⟩

/-- Serialize the full persisted record, field for field in declaration
order — the JSON document that `exportToJsonFile` writes for it. -/
def RestorationModel.toJson (r : RestorationModel) : Json :=
  .obj [("ecosystem", .str r.ecosystem),
        ("country", .str r.country),
        ("method", .str r.method),
        ("timeHorizon", .num r.timeHorizon),
        ("contextVariables", r.contextVariables.toJson),
        ("selectedAssistances", .arr (r.selectedAssistances.map Json.str)),
        ("favorableScenario", r.favorableScenario.toJson),
        ("unfavorableScenario", r.unfavorableScenario.toJson),
        ("assistanceCosts", .arr (r.assistanceCosts.map AssistanceCost.toJson)),
        ("interactionAdjustment", .num r.interactionAdjustment),
        ("favorableFactorShares", r.favorableFactorShares.toJson)]

/-- Identification fields of the record, parsed together. -/
def Json.idFields (j : Json) : Option (String × String × String × ℚ) := do
  let ecosystem ← (← j.getField "ecosystem").asStr
  let country ← (← j.getField "country").asStr
  let method ← (← j.getField "method").asStr
  let timeHorizon ← (← j.getField "timeHorizon").asNum
  pure (ecosystem, country, method, timeHorizon)

/-- Context and selection fields of the record, parsed together. -/
def Json.contextFields (j : Json) : Option (ContextVariables × List String) := do
  let contextVariables ← ContextVariables.fromJson (← j.getField "contextVariables")
  let selectedRaw ← (← j.getField "selectedAssistances").asArr
  let selectedAssistances ← selectedRaw.mapM Json.asStr
  pure (contextVariables, selectedAssistances)

/-- Scenario cost fields of the record, parsed together. -/
def Json.scenarioFields (j : Json) : Option (ScenarioCosts × ScenarioCosts) := do
  let favorableScenario ← ScenarioCosts.fromJson (← j.getField "favorableScenario")
  let unfavorableScenario ← ScenarioCosts.fromJson (← j.getField "unfavorableScenario")
  pure (favorableScenario, unfavorableScenario)

/-- Assistance, adjustment and shares fields of the record, parsed
together. -/
def Json.assistanceFields (j : Json) : Option (List AssistanceCost × ℚ × FactorShares) := do
  let assistanceRaw ← (← j.getField "assistanceCosts").asArr
  let assistanceCosts ← assistanceRaw.mapM AssistanceCost.fromJson
  let interactionAdjustment ← (← j.getField "interactionAdjustment").asNum
  let favorableFactorShares ← FactorShares.fromJson (← j.getField "favorableFactorShares")
  pure (assistanceCosts, interactionAdjustment, favorableFactorShares)

/-- Parse a JSON document back into the record shape: every field of the
`RestorationModel` interface is required, with its declared type. -/
def RestorationModel.fromJson (j : Json) : Option RestorationModel := do
  let (ecosystem, country, method, timeHorizon) ← j.idFields
  let (contextVariables, selectedAssistances) ← j.contextFields
  let (favorableScenario, unfavorableScenario) ← j.scenarioFields
  let (assistanceCosts, interactionAdjustment, favorableFactorShares) ← j.assistanceFields
  pure ⟨ecosystem, country, method, timeHorizon, contextVariables, selectedAssistances,
        favorableScenario, unfavorableScenario, assistanceCosts,
        interactionAdjustment, favorableFactorShares⟩

/-- Sample record used to exercise the JSON round trip on a concrete
input. -/
def sampleRecord : RestorationModel :=
  { ecosystem := "Cerrado"
    country := "Brazil"
    method := "Natural regeneration"
    timeHorizon := 20
    contextVariables :=
      ⟨SeverityLevel.low, SoilDegradationLevel.moderate, SeverityLevel.high,
       SeverityLevel.low, SeverityLevel.medium, BinaryConstraint.yes⟩
    selectedAssistances := ["fencing"]
    favorableScenario := ⟨1000, 400, 600⟩
    unfavorableScenario := ⟨1300, 500, 800⟩
    assistanceCosts := [⟨"fencing", some 800, Phase.both, ⟨50, 30, 20⟩⟩]
    interactionAdjustment := -50
    favorableFactorShares := ⟨40, 35, 25⟩ }

/-- The per-variant completeness condition in the words of the
specification (spec side of claim C5, to be compared with `tabCheck`):
the variant entry is present, both costs are strictly positive, and both
distributions are present and sum to 100 within 0.01. -/
def MethodTabSpecOk (entry : Option MethodCostEntry) : Prop :=
  ∃ e, entry = some e ∧ 0 < e.implementationCost ∧ 0 < e.maintenanceCost ∧
    ∃ di dm, e.implementationDistribution = some di ∧ e.maintenanceDistribution = some dm ∧
      |di.labor + di.materials + di.machinery - 100| < 1 / 100 ∧
      |dm.labor + dm.materials + dm.machinery - 100| < 1 / 100

/-! ## Helper lemmas -/

/-- A left fold that adds `f a` at each step computes the sum of the
mapped list. -/
theorem foldl_add_map {α : Type} (f : α → ℚ) (l : List α) (init : ℚ) :
    l.foldl (fun s a => s + f a) init = init + (l.map f).sum := by
  induction l generalizing init with
  | nil => simp
  | cons x xs ih => simp [ih, add_assoc]

/-- Parsing the serialization of a factor-shares triple recovers it. -/
theorem factorShares_roundtrip (s : FactorShares) :
    FactorShares.fromJson s.toJson = some s := rfl

/-- Parsing the serialization of a phase recovers it. -/
theorem phase_roundtrip (p : Phase) : Phase.fromJson p.toJson = some p := by
  cases p <;> rfl

/-- Parsing the serialization of a scenario cost triple recovers it. -/
theorem scenarioCosts_roundtrip (c : ScenarioCosts) :
    ScenarioCosts.fromJson c.toJson = some c := rfl

/-- Parsing the serialization of an assistance entry whose cost is
defined recovers the entry. -/
theorem assistanceCost_roundtrip (a : AssistanceCost) (q : ℚ) (hq : a.cost = some q) :
    AssistanceCost.fromJson a.toJson = some a := by
  obtain ⟨n, c, p, s⟩ := a
  cases hq
  cases p <;> rfl

/-- Traversing a mapped list with a left inverse of the mapped function
succeeds and recovers the list. -/
theorem mapM_map_fromJson {α β : Type} (f : β → Option α) (g : α → β)
    (l : List α) (h : ∀ a ∈ l, f (g a) = some a) :
    (l.map g).mapM f = some l := by
  induction l with
  | nil => rfl
  | cons x xs ih =>
    simp only [List.map_cons, List.mapM_cons, h x (by simp), Option.bind_eq_bind,
      Option.some_bind, ih (fun a ha => h a (by simp [ha]))]
    rfl

/-- Parsing the serialization of a severity level recovers it. -/
theorem severityLevel_roundtrip (x : SeverityLevel) :
    SeverityLevel.fromJson x.toJson = some x := by cases x <;> rfl

/-- Parsing the serialization of a soil degradation level recovers it. -/
theorem soilDegradationLevel_roundtrip (x : SoilDegradationLevel) :
    SoilDegradationLevel.fromJson x.toJson = some x := by cases x <;> rfl

/-- Parsing the serialization of a binary constraint recovers it. -/
theorem binaryConstraint_roundtrip (x : BinaryConstraint) :
    BinaryConstraint.fromJson x.toJson = some x := by cases x <;> rfl

/-- Parsing the serialization of the context variables recovers them. -/
theorem contextVariables_roundtrip (v : ContextVariables) :
    ContextVariables.fromJson v.toJson = some v := by
  obtain ⟨f, s, g, i, h, b⟩ := v
  show (SeverityLevel.fromJson f.toJson).bind (fun f1 =>
    (SoilDegradationLevel.fromJson s.toJson).bind (fun s1 =>
      (SeverityLevel.fromJson g.toJson).bind (fun g1 =>
        (SeverityLevel.fromJson i.toJson).bind (fun i1 =>
          (SeverityLevel.fromJson h.toJson).bind (fun h1 =>
            (BinaryConstraint.fromJson b.toJson).bind (fun b1 =>
              some (ContextVariables.mk f1 s1 g1 i1 h1 b1))))))) =
    some (ContextVariables.mk f s g i h b)
  rw [severityLevel_roundtrip, soilDegradationLevel_roundtrip,
    severityLevel_roundtrip, severityLevel_roundtrip,
    severityLevel_roundtrip, binaryConstraint_roundtrip]
  rfl

/-- The boolean per-tab check of `allMethodTabsComplete` holds exactly
when the specification's per-variant condition holds. -/
theorem tabCheck_iff (entry : Option MethodCostEntry) :
    tabCheck entry = true ↔ MethodTabSpecOk entry := by
  cases entry with
  | none => simp [tabCheck, MethodTabSpecOk]
  | some e =>
    simp only [tabCheck, MethodTabSpecOk, Option.some.injEq]
    by_cases hc : e.implementationCost ≤ 0 ∨ e.maintenanceCost ≤ 0
    · rw [if_pos hc]
      constructor
      · intro hfalse
        exact absurd hfalse (by simp)
      · rintro ⟨e1, rfl, h1, h2, -⟩
        rcases hc with hc | hc
        · exact absurd h1 (not_lt.mpr hc)
        · exact absurd h2 (not_lt.mpr hc)
    · rw [if_neg hc]
      push_neg at hc
      cases hdi : e.implementationDistribution with
      | none =>
        simp only [hdi]
        constructor
        · intro hfalse
          exact absurd hfalse (by cases e.maintenanceDistribution <;> simp)
        · rintro ⟨e1, rfl, -, -, di, dm, hdi1, -⟩
          rw [hdi] at hdi1
          exact absurd hdi1 (by simp)
      | some di =>
        cases hdm : e.maintenanceDistribution with
        | none =>
          simp only [hdi, hdm]
          constructor
          · intro hfalse
            exact absurd hfalse (by simp)
          · rintro ⟨e1, rfl, -, -, di1, dm1, -, hdm1, -⟩
            rw [hdm] at hdm1
            exact absurd hdm1 (by simp)
        | some dm =>
          simp only [hdi, hdm, Bool.and_eq_true, decide_eq_true_eq, distSum]
          constructor
          · rintro ⟨h1, h2⟩
            refine ⟨e, rfl, hc.1, hc.2, di, dm, hdi, hdm, ?di, ?dm⟩
            · calc |di.labor + di.materials + di.machinery - 100|
                  = |di.labor + di.machinery + di.materials - 100| := by ring_nf
                _ < 1 / 100 := h1
            · calc |dm.labor + dm.materials + dm.machinery - 100|
                  = |dm.labor + dm.machinery + dm.materials - 100| := by ring_nf
                _ < 1 / 100 := h2
          · rintro ⟨e1, rfl, -, -, di1, dm1, hdi1, hdm1, h1, h2⟩
            rw [hdi] at hdi1
            rw [hdm] at hdm1
            cases hdi1
            cases hdm1
            constructor
            · calc |di.labor + di.machinery + di.materials - 100|
                  = |di.labor + di.materials + di.machinery - 100| := by ring_nf
                _ < 1 / 100 := h1
            · calc |dm.labor + dm.machinery + dm.materials - 100|
                  = |dm.labor + dm.materials + dm.machinery - 100| := by ring_nf
                _ < 1 / 100 := h2

/-- The entry names of the synchronized list are exactly the selected
identifiers, in order. -/
theorem syncedAssistanceEntries_names (selected : List String)
    (entries : List AssistanceCost) :
    (syncedAssistanceEntries selected entries).map (fun c => c.name) = selected := by
  induction selected with
  | nil => rfl
  | cons x xs ih =>
    simp only [syncedAssistanceEntries, List.map_cons] at ih ⊢
    rw [ih]
    cases hf : entries.find? (fun c => c.name == x) with
    | none => rfl
    | some e =>
      have hbeq : (e.name == x) = true :=
        @List.find?_some _ (fun c => c.name == x) e entries hf
      have hx : e.name = x := eq_of_beq hbeq
      simp [hx]

/-! ## Claim theorems -/

/-- Claim C1: for every declared unfavorable cost `d ≥ 0`, assistance
entry list and interaction adjustment, `computeFields` reports
`isWithinTolerance = true`, when `d` is nonzero, exactly when
`|d - computedUnfavorableCost| / d ≤ 0.05` (the default relative
tolerance), and when `d = 0` exactly when the computed cost is also `0`
(the quotient-free zero special case, so declared `0` with computed `5`
is not within tolerance and no division by zero occurs). -/
theorem computeFields_withinTolerance_spec (fav : ℚ) (entries : List AssistanceCost)
    (d adj : ℚ) (hd : 0 ≤ d) :
    (d ≠ 0 → ((computeFields fav entries d adj).isWithinTolerance = true ↔
      |d - (computeFields fav entries d adj).computedUnfavorableCost| / d ≤ 5 / 100)) ∧
    (d = 0 → ((computeFields fav entries d adj).isWithinTolerance = true ↔
      (computeFields fav entries d adj).computedUnfavorableCost = 0)) := by
  constructor
  · intro hne
    have hpos : 0 < d := lt_of_le_of_ne hd (Ne.symm hne)
    simp only [computeFields, RECONCILIATION_TOLERANCE]
    rw [if_neg hne]
    rw [decide_eq_true_eq]
    rw [abs_div, abs_of_pos hpos]
  · intro h0
    simp only [computeFields]
    rw [if_pos h0]
    simp

/-- Witness for claim C1 at the declared-zero instance with computed
cost `5` (favorable `5`, no entries, declared `0`, adjustment `0`). -/
theorem computeFields_withinTolerance_spec_witness :
    (0 : ℚ) ≤ 0 ∧
    (((0 : ℚ) ≠ 0 → ((computeFields 5 [] 0 0).isWithinTolerance = true ↔
      |(0 : ℚ) - (computeFields 5 [] 0 0).computedUnfavorableCost| / 0 ≤ 5 / 100)) ∧
     ((0 : ℚ) = 0 → ((computeFields 5 [] 0 0).isWithinTolerance = true ↔
      (computeFields 5 [] 0 0).computedUnfavorableCost = 0))) :=
  ⟨le_refl 0, computeFields_withinTolerance_spec 5 [] 0 0 (le_refl 0)⟩

/-- Claim C2: for every favorable total, entry list and adjustment,
`computeFields` returns `computedUnfavorableCost` equal to the favorable
total plus the sum of entry costs (an undefined cost contributing 0)
plus the adjustment; in particular `5000` with costs `800` and `300` and
adjustment `-50` gives `6050`. -/
theorem computeFields_cost_additivity (fav : ℚ) (entries : List AssistanceCost)
    (d adj : ℚ) :
    (computeFields fav entries d adj).computedUnfavorableCost
        = fav + (entries.map (fun a => a.cost.getD 0)).sum + adj ∧
      (computeFields 5000
        [⟨"fencing", some 800, Phase.implementation, ⟨0, 0, 0⟩⟩,
         ⟨"firebreak", some 300, Phase.implementation, ⟨0, 0, 0⟩⟩]
        6000 (-50)).computedUnfavorableCost = 6050 := by
  constructor
  · simp only [computeFields, computeTotalAssistanceCost]
    rw [foldl_add_map]
    ring
  · norm_num [computeFields, computeTotalAssistanceCost, List.foldl]

/-- Claim C3: for every factor triple with each dimension in `[0, 100]`,
the validation schema accepts the triple exactly when
`|labor + materials + machinery - 100| < 0.01`, and otherwise rejects it
with the sum-to-100 refinement failing. -/
theorem factorSharesSchema_spec (s : FactorShares)
    (hl : 0 ≤ s.labor ∧ s.labor ≤ 100) (hm : 0 ≤ s.materials ∧ s.materials ≤ 100)
    (hk : 0 ≤ s.machinery ∧ s.machinery ≤ 100) :
    (factorSharesAccepts s = true ↔ |s.labor + s.materials + s.machinery - 100| < 1 / 100) ∧
    (¬ |s.labor + s.materials + s.machinery - 100| < 1 / 100 →
      factorSharesAccepts s = false ∧ factorSumOk s = false) := by
  have hfi : factorFieldIssues s = [] := by
    have h1 : ¬(s.labor < 0 ∨ 100 < s.labor) := by
      push_neg
      exact ⟨hl.1, hl.2⟩
    have h2 : ¬(s.materials < 0 ∨ 100 < s.materials) := by
      push_neg
      exact ⟨hm.1, hm.2⟩
    have h3 : ¬(s.machinery < 0 ∨ 100 < s.machinery) := by
      push_neg
      exact ⟨hk.1, hk.2⟩
    simp only [factorFieldIssues, if_neg h1, if_neg h2, if_neg h3, List.append_nil]
  constructor
  · rw [factorSharesAccepts, hfi]
    simp [factorSumOk]
  · intro hns
    rw [factorSharesAccepts, factorSumOk, hfi]
    have hge := not_lt.mp hns
    constructor
    · simp only [Bool.and_eq_false_iff, decide_eq_false_iff_not, not_lt]
      right
      simpa using hge
    · simp only [factorSumOk, decide_eq_false_iff_not, not_lt]
      simpa using hge

/-- Witness for claim C3 at the valid triple `{30, 30, 40}`. -/
theorem factorSharesSchema_spec_witness :
    (((0 : ℚ) ≤ 30 ∧ (30 : ℚ) ≤ 100) ∧ ((0 : ℚ) ≤ 30 ∧ (30 : ℚ) ≤ 100) ∧
      ((0 : ℚ) ≤ 40 ∧ (40 : ℚ) ≤ 100)) ∧
    ((factorSharesAccepts ⟨30, 30, 40⟩ = true ↔
        |(30 : ℚ) + 30 + 40 - 100| < 1 / 100) ∧
      (¬ |(30 : ℚ) + 30 + 40 - 100| < 1 / 100 →
        factorSharesAccepts ⟨30, 30, 40⟩ = false ∧ factorSumOk ⟨30, 30, 40⟩ = false)) :=
  ⟨⟨⟨by norm_num, by norm_num⟩, ⟨by norm_num, by norm_num⟩, ⟨by norm_num, by norm_num⟩⟩,
    factorSharesSchema_spec ⟨30, 30, 40⟩ ⟨by norm_num, by norm_num⟩
      ⟨by norm_num, by norm_num⟩ ⟨by norm_num, by norm_num⟩⟩

/-- Counterexample to claim C4 as stated: at the non-negative triple
`{totalCost: 0.01, implementationCost: 0, maintenanceCost: 0}` the
difference is exactly `0.01`, so the claimed non-strict tolerance
`|total - (implementation + maintenance)| ≤ 0.01` holds, yet the schema
rejects the triple (its refinement is the strict `< 0.01`). -/
theorem scenarioCostsSchema_claim_counterexample :
    (0 : ℚ) ≤ 1 / 100 ∧ (0 : ℚ) ≤ 0 ∧ (0 : ℚ) ≤ 0 ∧
    |(1 : ℚ) / 100 - (0 + 0)| ≤ 1 / 100 ∧
    scenarioCostsAccepts ⟨1 / 100, 0, 0⟩ = false := by
  have habs : |(1 : ℚ) / 100 - (0 + 0)| = 1 / 100 := by
    rw [add_zero, sub_zero]
    exact abs_of_nonneg (by norm_num)
  refine ⟨by norm_num, le_refl 0, le_refl 0, by rw [habs], ?cx⟩
  rw [scenarioCostsAccepts, scenarioTotalOk]
  norm_num [scenarioFieldIssues, habs]
  exact le_abs_self _

/-- Claim C4 as amended: for every scenario cost triple with
non-negative costs, the schema accepts it exactly when
`|totalCost - (implementationCost + maintenanceCost)| < 0.01` (strict
tolerance); `{1000, 400, 600}` is valid and `{1000, 400, 601}` is
invalid. -/
theorem scenarioCostsSchema_amended_spec (c : ScenarioCosts)
    (ht : 0 ≤ c.totalCost) (hi : 0 ≤ c.implementationCost) (hm : 0 ≤ c.maintenanceCost) :
    (scenarioCostsAccepts c = true ↔
      |c.totalCost - (c.implementationCost + c.maintenanceCost)| < 1 / 100) ∧
    scenarioCostsAccepts ⟨1000, 400, 600⟩ = true ∧
    scenarioCostsAccepts ⟨1000, 400, 601⟩ = false := by
  have hfi : scenarioFieldIssues c = [] := by
    simp only [scenarioFieldIssues, if_neg (not_lt.mpr ht), if_neg (not_lt.mpr hi),
      if_neg (not_lt.mpr hm), List.append_nil]
  refine ⟨?main, ?ex1, ?ex2⟩
  · rw [scenarioCostsAccepts, hfi]
    simp [scenarioTotalOk]
  · norm_num [scenarioCostsAccepts, scenarioFieldIssues, scenarioTotalOk]
  · norm_num [scenarioCostsAccepts, scenarioFieldIssues, scenarioTotalOk]

/-- Witness for the amended claim C4 at the valid triple
`{1000, 400, 600}`. -/
theorem scenarioCostsSchema_amended_spec_witness :
    ((0 : ℚ) ≤ 1000 ∧ (0 : ℚ) ≤ 400 ∧ (0 : ℚ) ≤ 600) ∧
    ((scenarioCostsAccepts ⟨1000, 400, 600⟩ = true ↔
        |(1000 : ℚ) - (400 + 600)| < 1 / 100) ∧
      scenarioCostsAccepts ⟨1000, 400, 600⟩ = true ∧
      scenarioCostsAccepts ⟨1000, 400, 601⟩ = false) :=
  ⟨⟨by norm_num, by norm_num, by norm_num⟩,
    scenarioCostsSchema_amended_spec ⟨1000, 400, 600⟩ (by norm_num) (by norm_num) (by norm_num)⟩

/-- Claim C5: `allMethodTabsComplete` is `true` exactly when the method
costs are present and each of the four fixed variants
(natural regeneration, ANR 30, seed dispersal, seedling planting) is
present with strictly positive implementation and maintenance costs and
both distributions present and summing to 100 within 0.01; it is `false`
whenever any of these checks fails. -/
theorem allMethodTabsComplete_spec (methodCosts : Option MethodCosts) :
    allMethodTabsComplete methodCosts = true ↔
      ∃ m, methodCosts = some m ∧ MethodTabSpecOk m.natural_regeneration ∧
        MethodTabSpecOk m.anr_30 ∧ MethodTabSpecOk m.seed_dispersal ∧
        MethodTabSpecOk m.seedling_planting := by
  cases methodCosts with
  | none => simp [allMethodTabsComplete]
  | some m =>
    simp only [allMethodTabsComplete, Bool.and_eq_true, tabCheck_iff, Option.some.injEq]
    constructor
    · rintro ⟨⟨⟨h1, h2⟩, h3⟩, h4⟩
      exact ⟨m, rfl, h1, h2, h3, h4⟩
    · rintro ⟨m1, rfl, h1, h2, h3, h4⟩
      exact ⟨⟨⟨h1, h2⟩, h3⟩, h4⟩

/-- Claim C6: the assistance-entry synchronization is idempotent — when
the entry names already equal the selected identifiers in order, the
effect performs no write of the entries list, so re-running it on
already-matching state cannot start a write/recompute cycle. -/
theorem assistanceSync_idempotent (selected : List String)
    (entries : List AssistanceCost)
    (h : entries.map (fun c => c.name) = selected) :
    assistanceSyncWrite selected entries = none := by
  cases selected with
  | nil =>
    have hnil : entries = [] := List.map_eq_nil_iff.mp h
    subst hnil
    rfl
  | cons x xs =>
    rw [assistanceSyncWrite]
    rw [if_neg (by simp)]
    have hnames : (syncedAssistanceEntries (x :: xs) entries).map (fun c => c.name)
        = x :: xs := syncedAssistanceEntries_names (x :: xs) entries
    simp only [h, hnames, ne_eq, not_true_eq_false, if_neg, if_false]

/-- Witness for claim C6 on a two-entry state that already matches its
selection. -/
theorem assistanceSync_idempotent_witness :
    ([⟨"fencing", some 10, Phase.both, ⟨50, 30, 20⟩⟩,
      ⟨"firebreak", some 5, Phase.implementation, ⟨20, 40, 40⟩⟩] :
        List AssistanceCost).map (fun c => c.name) = ["fencing", "firebreak"] ∧
    assistanceSyncWrite ["fencing", "firebreak"]
      [⟨"fencing", some 10, Phase.both, ⟨50, 30, 20⟩⟩,
       ⟨"firebreak", some 5, Phase.implementation, ⟨20, 40, 40⟩⟩] = none :=
  ⟨rfl, assistanceSync_idempotent _ _ rfl⟩

/-- Claim C7: whenever the total cost across the components is `0`
(in particular for the empty list and for all-zero costs),
`weightedShares` returns the zero triple whatever the component shares
are, taking the guarded branch instead of dividing by zero. -/
theorem weightedShares_zero_total (components : List CostComponent)
    (h : (components.map (fun c => c.cost.getD 0)).sum = 0) :
    weightedShares components = ⟨0, 0, 0⟩ := by
  rw [weightedShares]
  rw [foldl_add_map, zero_add, h]
  simp

/-- Witness for claim C7 on two zero-cost components with nonzero
shares. -/
theorem weightedShares_zero_total_witness :
    (([⟨some 0, ⟨30, 30, 40⟩⟩, ⟨some 0, ⟨10, 20, 70⟩⟩] :
        List CostComponent).map (fun c => c.cost.getD 0)).sum = 0 ∧
    weightedShares [⟨some 0, ⟨30, 30, 40⟩⟩, ⟨some 0, ⟨10, 20, 70⟩⟩] = ⟨0, 0, 0⟩ :=
  ⟨by simp, weightedShares_zero_total _ (by simp)⟩

/-- Claim C8: serializing a record (all of whose fields carry the
numbers, strings, booleans, arrays and nested objects of the record
shape — in particular every assistance cost defined) to the exported
JSON document and parsing that document back into the record shape
yields the original record: no field is lost and no value changes
type. -/
theorem restorationModel_json_roundtrip (r : RestorationModel)
    (h : ∀ a ∈ r.assistanceCosts, ∃ q, a.cost = some q) :
    RestorationModel.fromJson r.toJson = some r := by
  have hid : r.toJson.idFields = some (r.ecosystem, r.country, r.method, r.timeHorizon) := rfl
  have hsel : (r.selectedAssistances.map Json.str).mapM Json.asStr = some r.selectedAssistances :=
    mapM_map_fromJson Json.asStr Json.str r.selectedAssistances (fun a _ => rfl)
  have hctx : r.toJson.contextFields = some (r.contextVariables, r.selectedAssistances) := by
    show (ContextVariables.fromJson r.contextVariables.toJson).bind (fun cv =>
      ((r.selectedAssistances.map Json.str).mapM Json.asStr).bind (fun sel =>
        some (cv, sel))) = _
    rw [contextVariables_roundtrip, hsel]
    rfl
  have hscen : r.toJson.scenarioFields = some (r.favorableScenario, r.unfavorableScenario) := rfl
  have hac : (r.assistanceCosts.map AssistanceCost.toJson).mapM AssistanceCost.fromJson
      = some r.assistanceCosts := by
    refine mapM_map_fromJson _ _ _ (fun a ha => ?h)
    obtain ⟨q, hq⟩ := h a ha
    exact assistanceCost_roundtrip a q hq
  have hassist : r.toJson.assistanceFields
      = some (r.assistanceCosts, r.interactionAdjustment, r.favorableFactorShares) := by
    show ((r.assistanceCosts.map AssistanceCost.toJson).mapM AssistanceCost.fromJson).bind
      (fun ac => some (ac, r.interactionAdjustment, r.favorableFactorShares)) = _
    rw [hac]
    rfl
  simp only [RestorationModel.fromJson]
  rw [hid, hctx, hscen, hassist]
  rfl

/-- Witness for claim C8 on the concrete sample record. -/
theorem restorationModel_json_roundtrip_witness :
    (∀ a ∈ sampleRecord.assistanceCosts, ∃ q, a.cost = some q) ∧
    RestorationModel.fromJson sampleRecord.toJson = some sampleRecord := by
  have hdef : ∀ a ∈ sampleRecord.assistanceCosts, ∃ q, a.cost = some q := by
    intro a ha
    rw [show sampleRecord.assistanceCosts
      = [⟨"fencing", some 800, Phase.both, ⟨50, 30, 20⟩⟩] from rfl] at ha
    rw [List.mem_singleton] at ha
    subst ha
    exact ⟨800, rfl⟩
  exact ⟨hdef, restorationModel_json_roundtrip sampleRecord hdef⟩

/-- Claim C9: loading the saved models never propagates an error — an
absent stored value yields the empty list, and a stored value on which
the JSON parser fails (the thrown exception is caught) also yields the
empty list. -/
theorem loadModels_failsSoft (parseJson : String → Option Json)
    (stored : Option String) :
    (stored = Option.none → loadModels parseJson stored = Json.arr []) ∧
    (∀ raw, stored = some raw → parseJson raw = Option.none →
      loadModels parseJson stored = Json.arr []) := by
  constructor
  · rintro rfl
    rfl
  · rintro raw rfl hp
    rw [loadModels]
    by_cases he : raw = ""
    · rw [if_pos he]
    · rw [if_neg he, hp]

/-- Witness for claim C9 with a parser that fails on the stored text. -/
theorem loadModels_failsSoft_witness :
    loadModels (fun _ => Option.none) (some "not json") = Json.arr [] :=
  (loadModels_failsSoft (fun _ => Option.none) (some "not json")).2 "not json" rfl rfl

/-- Claim C10: for every selected-identifier list and entry list, the
synchronized entry at each selected position is the existing entry of
that identifier — kept with its cost, phase and factor shares unchanged
— when one exists, and the zero-initialized fresh entry
`{cost: 0, phase: implementation, zero shares}` only when none
exists. -/
theorem assistanceSync_frame (selected : List String)
    (entries : List AssistanceCost) (i : Nat) (id : String)
    (hi : selected[i]? = some id) :
    (∀ e, entries.find? (fun c => c.name == id) = some e →
      (syncedAssistanceEntries selected entries)[i]? = some e) ∧
    (entries.find? (fun c => c.name == id) = Option.none →
      (syncedAssistanceEntries selected entries)[i]? =
        some ⟨id, some 0, Phase.implementation, ⟨0, 0, 0⟩⟩) := by
  constructor
  · intro e hf
    rw [syncedAssistanceEntries, List.getElem?_map, hi]
    simp only [Option.map_some']
    rw [hf]
  · intro hf
    rw [syncedAssistanceEntries, List.getElem?_map, hi]
    simp only [Option.map_some']
    rw [hf]
    rfl

/-- Witness for claim C10: the newly selected identifier gets a fresh
zero-initialized entry. -/
theorem assistanceSync_frame_witness :
    (["fencing", "firebreak"][1]? = some "firebreak") ∧
    ((∀ e, ([⟨"fencing", some 10, Phase.both, ⟨50, 30, 20⟩⟩] :
        List AssistanceCost).find? (fun c => c.name == "firebreak") = some e →
      (syncedAssistanceEntries ["fencing", "firebreak"]
        [⟨"fencing", some 10, Phase.both, ⟨50, 30, 20⟩⟩])[1]? = some e) ∧
    (([⟨"fencing", some 10, Phase.both, ⟨50, 30, 20⟩⟩] :
        List AssistanceCost).find? (fun c => c.name == "firebreak") = Option.none →
      (syncedAssistanceEntries ["fencing", "firebreak"]
        [⟨"fencing", some 10, Phase.both, ⟨50, 30, 20⟩⟩])[1]? =
        some ⟨"firebreak", some 0, Phase.implementation, ⟨0, 0, 0⟩⟩)) :=
  ⟨rfl, assistanceSync_frame _ _ 1 "firebreak" rfl⟩

end Restoration
